import Mathlib

/-!
Verification development for the Hantverkar Dashboard backend.

This file is a shallow embedding of `src/main.py` and `src/schemas.py`:

* machine floats of the Python code are modelled exactly as rationals (ℚ);
  Python's `round(x, 2)` (round-half-to-even, the numeric library default)
  is modelled by `round2`;
* `bson.ObjectId` is modelled by `ObjectId`, a wrapper around its
  24-character hex string; `oid` models the `oid` helper of `main.py`
  (HTTP 400 on a malformed identifier);
* the document store is modelled by `DBState`, one list of documents per
  collection.  The gateway module `database.py` (`create_document`,
  `get_documents`) and the store's own query evaluation are not part of
  `src/`; they are modelled from the specification, section 4.2: `insert`
  appends a document with a fresh identifier, `find` with an equality
  filter keeps documents whose field equals the value, and a `$regex`
  filter with option `i` keeps documents where the pattern occurs as a
  case-insensitive literal substring;
* HTTP exceptions become the `ApiError` type and fallible routes return
  `Except ApiError`.
-/

namespace Hantverkar

/-- Characters accepted in a hexadecimal identifier string. -/
def isHexDigit (c : Char) : Bool :=
  c.isDigit || (('a' ≤ c) && (c ≤ 'f')) || (('A' ≤ c) && (c ≤ 'F'))

/-- A string is a well-formed identifier when it is 24 hexadecimal
characters, the only string form `bson.ObjectId` accepts. -/
def validOid (s : String) : Bool :=
  s.length == 24 && s.data.all isHexDigit

/-- Canonical rendering of a hex identifier string: `bson.ObjectId`
decodes its 24 hex characters case-insensitively into 12 bytes, so two
spellings differing only in letter case denote the same identifier;
lowercasing picks the canonical spelling of those bytes. -/
def canonHex (s : String) : String :=
  ⟨s.data.map Char.toLower⟩

/-- The store's native identifier type (`bson.ObjectId`), carried as the
canonical lowercase hex rendering of its 12 bytes; equality of the
canonical renderings is byte equality of the identifiers. -/
structure ObjectId where
  val : String
deriving DecidableEq

/-- Errors surfaced as HTTP client errors by `main.py`: `oid` raises 400
("Ogiltigt ID") and `create_order` raises 404 ("Material saknas"), the
latter carrying the missing material's identifier string. -/
inductive ApiError where
  | invalidIdentifier : ApiError
  | materialNotFound : String → ApiError
deriving DecidableEq

/-- The HTTP status code attached to each error in `main.py`. -/
def ApiError.statusCode : ApiError → Nat
  | .invalidIdentifier => 400
  | .materialNotFound _ => 404

/-- `main.py` lines 35-39: safely cast a string id to `ObjectId`,
raising a client error when the string is malformed.  Decoding
canonicalizes the hex spelling, as `bson.ObjectId` turns it into bytes. -/
def oid (s : String) : Except ApiError ObjectId :=
  if validOid s then .ok ⟨canonHex s⟩ else .error .invalidIdentifier

/-- Round-half-to-even of a rational to an integer, the default rounding
of Python's `round`. -/
def roundHalfEven (x : ℚ) : ℤ :=
  let f : ℤ := ⌊x⌋
  let r : ℚ := x - (f : ℚ)
  if r < 1 / 2 then f
  else if 1 / 2 < r then f + 1
  else if f % 2 = 0 then f else f + 1

/-- Python's `round(x, 2)`: round to two decimal places. -/
def round2 (x : ℚ) : ℚ :=
  ((roundHalfEven (x * 100) : ℤ) : ℚ) / 100

/-! ### Schemas (`src/schemas.py`)

Order lines and orders as validated by the request models.  `quantity`
is constrained positive and `unit_price` non-negative by the schema;
those bounds are not needed by the theorems below and are not repeated
here.  `scheduled_date` is kept as an opaque optional string. -/

structure OrderItem where
  material_id : String
  quantity : ℚ
  unit_price : Option ℚ
deriving DecidableEq

structure Order where
  customer_id : String
  installer_id : Option String
  items : List OrderItem
  status : String
  scheduled_date : Option String
  total : Option ℚ
  notes : Option String
deriving DecidableEq

/-- A raw order-creation payload before schema validation: `none` marks a
field the client omitted. -/
structure OrderPayload where
  customer_id : String
  installer_id : Option String
  items : Option (List OrderItem)
  status : Option String
  scheduled_date : Option String
  total : Option ℚ
  notes : Option String
deriving DecidableEq

/-- Schema validation of an order payload (`schemas.py` lines 48-55):
missing fields receive the declared defaults — empty item list and
status "ny". -/
def parseOrder (p : OrderPayload) : Order :=
  { customer_id := p.customer_id
    installer_id := p.installer_id
    items := p.items.getD []
    status := p.status.getD "ny"
    scheduled_date := p.scheduled_date
    total := p.total
    notes := p.notes }

/-! ### Stored documents and the store state

Documents written through this API carry the schema fields plus the
store-generated `_id`.  A material's `price` is optional on the stored
side (the store is schemaless and `create_order` guards the read with
`mat.get("price", 0)`). -/

structure MaterialDoc where
  _id : ObjectId
  sku : String
  name : String
  unit : String
  price : Option ℚ
  stock : Int
  supplier : Option String
deriving DecidableEq

structure CustomerDoc where
  _id : ObjectId
  name : String
  email : Option String
  phone : Option String
  address : Option String
  company : Option String
  notes : Option String
deriving DecidableEq

structure InstallerDoc where
  _id : ObjectId
  name : String
  email : Option String
  phone : Option String
  skills : List String
  active : Bool
deriving DecidableEq

/-- A persisted order: the payload plus its generated identifier. -/
structure StoredOrder where
  _id : ObjectId
  order : Order
deriving DecidableEq

/-- The document store: one collection per entity, plus the identifier
the store will hand to the next inserted document. -/
structure DBState where
  customers : List CustomerDoc
  installers : List InstallerDoc
  materials : List MaterialDoc
  orders : List StoredOrder
  nextId : ObjectId
deriving DecidableEq

/-- `find_one` on the material collection with an `_id` equality filter:
identifier equality is byte equality, i.e. equality of the canonical
renderings `ObjectId` carries. -/
def findMaterial (st : DBState) (i : ObjectId) : Option MaterialDoc :=
  st.materials.find? (fun m => decide (m._id = i))

/-- `find_one` on the customer collection with an `_id` equality filter
(byte equality of identifiers, as for materials). -/
def findCustomer (st : DBState) (i : ObjectId) : Option CustomerDoc :=
  st.customers.find? (fun c => decide (c._id = i))

/-- `find_one` on the installer collection with an `_id` equality filter
(byte equality of identifiers, as for materials). -/
def findInstaller (st : DBState) (i : ObjectId) : Option InstallerDoc :=
  st.installers.find? (fun j => decide (j._id = i))

/-! ### Order creation (`main.py` lines 93-108) -/

/-- One step of the pricing loop: an item with an explicit `unit_price`
is kept as is; otherwise the material is looked up (decoding its id,
HTTP 400 on a malformed one), a missing material is HTTP 404, and the
item's `unit_price` becomes the material's `price` (0 when absent). -/
def resolveItem (st : DBState) (it : OrderItem) : Except ApiError OrderItem :=
  match it.unit_price with
  | some _ => .ok it
  | none =>
    match oid it.material_id with
    | .error e => .error e
    | .ok i =>
      match findMaterial st i with
      | none => .error (.materialNotFound it.material_id)
      | some mat => .ok { it with unit_price := some (mat.price.getD 0) }

/-- The pricing loop over the payload's items, in input order, stopping
at the first failing item. -/
def resolveItems (st : DBState) : List OrderItem → Except ApiError (List OrderItem)
  | [] => .ok []
  | it :: rest =>
    match resolveItem st it with
    | .error e => .error e
    | .ok it2 =>
      match resolveItems st rest with
      | .error e => .error e
      | .ok rest2 => .ok (it2 :: rest2)

/-- The amount one resolved line contributes to the total. -/
def itemAmount (it : OrderItem) : ℚ :=
  it.unit_price.getD 0 * it.quantity

/-- Sum of the line amounts of a list of items. -/
def sumItems (l : List OrderItem) : ℚ :=
  (l.map itemAmount).sum

/-- `POST /orders`: resolve prices, accumulate the total as the loop
does, round it to two decimals, overwrite the payload's `total`, persist
the order, and return the generated id and the total.  On an error the
store is left untouched (the insert happens after the loop). -/
def create_order (st : DBState) (p : Order) : DBState × Except ApiError (ObjectId × ℚ) :=
  match resolveItems st p.items with
  | .error e => (st, .error e)
  | .ok items2 =>
    let total : ℚ := round2 (items2.foldl (fun acc it => acc + itemAmount it) 0)
    let p2 : Order := { p with items := items2, total := some total }
    ({ st with orders := st.orders ++ [⟨st.nextId, p2⟩] }, .ok (st.nextId, total))

/-! ### Listing customers (`main.py` lines 47-59)

The route builds an empty filter when `q` is falsy (absent or the empty
string) and otherwise an `$or` of case-insensitive `$regex` matches on
`name` and `company`.  Modelled from the spec: `database.get_documents`
and the store's filter evaluation are not in `src/`; per section 4.2 the
regex filter is evaluated as a case-insensitive literal substring
predicate on the named field, matching nothing when the field is absent. -/

/-- Python truthiness of a string: every string except `""`. -/
def truthyStr (s : String) : Bool :=
  !(s == "")

/-- `needle` occurs in `hay` as a contiguous run starting at the front. -/
def leadMatch : List Char → List Char → Bool
  | [], _ => true
  | _ :: _, [] => false
  | a :: as, b :: bs => a == b && leadMatch as bs

/-- `needle` occurs somewhere in `hay` as a contiguous run. -/
def occursIn (needle : List Char) : List Char → Bool
  | [] => needle.isEmpty
  | b :: bs => leadMatch needle (b :: bs) || occursIn needle bs

/-- Case-insensitive substring containment on strings. -/
def ciContains (needle hay : String) : Bool :=
  occursIn (needle.data.map Char.toLower) (hay.data.map Char.toLower)

/-- The customer-search predicate: `q` occurs in `name`, or the customer
has a `company` and `q` occurs in it. -/
def customerMatches (q : String) (c : CustomerDoc) : Bool :=
  ciContains q c.name ||
    (match c.company with
     | some comp => ciContains q comp
     | none => false)

/-- `GET /customers`: all customers when the query is absent or empty,
otherwise the substring search on name and company.  (The route then
serializes each document; serialization does not change which records
are returned.) -/
def list_customers (q : Option String) (st : DBState) : List CustomerDoc :=
  match q with
  | none => st.customers
  | some s =>
    if truthyStr s then st.customers.filter (customerMatches s)
    else st.customers

/-! ### Listing orders with enrichment (`main.py` lines 110-127) -/

/-- The equality filter `list_orders` builds: each of `status` and
`customer_id` is applied only when truthy. -/
def orderFilter (stq cidq : Option String) (so : StoredOrder) : Bool :=
  (match stq with
   | some s => if truthyStr s then so.order.status == s else true
   | none => true) &&
  (match cidq with
   | some c => if truthyStr c then so.order.customer_id == c else true
   | none => true)

/-- The customer lookup of the enrichment loop: skipped entirely when
`customer_id` is falsy, otherwise the id is decoded (HTTP 400 on a
malformed one) and the customer searched. -/
def custLookup (st : DBState) (cid : String) : Except ApiError (Option CustomerDoc) :=
  if truthyStr cid then
    match oid cid with
    | .error e => .error e
    | .ok i => .ok (findCustomer st i)
  else .ok none

/-- The installer lookup of the enrichment loop, analogous. -/
def instLookup (st : DBState) (iid : Option String) : Except ApiError (Option InstallerDoc) :=
  match iid with
  | none => .ok none
  | some s =>
    if truthyStr s then
      match oid s with
      | .error e => .error e
      | .ok i => .ok (findInstaller st i)
    else .ok none

/-- One row of the `GET /orders` response: the serialized order document
with the two denormalized names attached (absent lookups yield `none`,
serialized as JSON null). -/
structure EnrichedOrder where
  doc : StoredOrder
  customer_name : Option String
  installer_name : Option String
deriving DecidableEq

/-- Enrich one order: the customer lookup runs first, then the installer
lookup, either one propagating its error. -/
def enrichOrder (st : DBState) (so : StoredOrder) : Except ApiError EnrichedOrder :=
  match custLookup st so.order.customer_id with
  | .error e => .error e
  | .ok cust =>
    match instLookup st so.order.installer_id with
    | .error e => .error e
    | .ok inst => .ok ⟨so, cust.map (fun c => c.name), inst.map (fun j => j.name)⟩

/-- The enrichment loop over the filtered orders, in order, stopping at
the first error. -/
def enrichAll (st : DBState) : List StoredOrder → Except ApiError (List EnrichedOrder)
  | [] => .ok []
  | so :: rest =>
    match enrichOrder st so with
    | .error e => .error e
    | .ok e =>
      match enrichAll st rest with
      | .error er => .error er
      | .ok es => .ok (e :: es)

/-- `GET /orders`: filter by the truthy query parameters, then enrich
each matching order with the customer and installer names. -/
def list_orders (stq cidq : Option String) (st : DBState) : Except ApiError (List EnrichedOrder) :=
  enrichAll st (st.orders.filter (orderFilter stq cidq))

/-! ### Serialization (`main.py` lines 131-140)

`serialize` receives a store document whose identifier fields may hold
either the native identifier type or an already-converted string; the
remaining fields pass through untouched and are collapsed into `rest`. -/

/-- A reference field as it sits in a store document: the native
identifier type or its string form. -/
inductive IdRep where
  | native : ObjectId → IdRep
  | text : String → IdRep
deriving DecidableEq

/-- Python's `str` on a reference field value. -/
def pyStr : IdRep → String
  | .native o => o.val
  | .text s => s

/-- A nested line item as stored: its `material_id` may be native or
already a string. -/
structure ItemDoc where
  material_id : IdRep
  quantity : ℚ
  unit_price : Option ℚ
deriving DecidableEq

/-- A store document as `serialize` sees it: the internal `_id` (absent
once popped), the external `id` string, the optional nested `items`
sequence, and all remaining fields untouched. -/
structure StoreDoc where
  _id : Option IdRep
  id : Option String
  items : Option (List ItemDoc)
  rest : List (String × String)
deriving DecidableEq

/-- Lines 133-134: pop `_id`, if present, into the external string field
`id`. -/
def stripId (d : StoreDoc) : StoreDoc :=
  match d._id with
  | some v => { d with _id := none, id := some (pyStr v) }
  | none => d

/-- Line 138-139: convert a nested `material_id` to its string form only
when the native identifier type is detected. -/
def serializeItem (it : ItemDoc) : ItemDoc :=
  match it.material_id with
  | .native o => { it with material_id := .text o.val }
  | .text _ => it

/-- Lines 136-139: when `items` is truthy (present and non-empty),
normalize each item's `material_id`. -/
def fixItems (d : StoreDoc) : StoreDoc :=
  match d.items with
  | some its =>
    if its.isEmpty then d else { d with items := some (its.map serializeItem) }
  | none => d

/-- `serialize`: rename `_id` to the external string `id`, then
normalize the nested material references. -/
def serialize (d : StoreDoc) : StoreDoc :=
  fixItems (stripId d)

/-- Result of a fallible route collapsed to success or failure. -/
def isOkE {α : Type} : Except ApiError α → Bool
  | .ok _ => true
  | .error _ => false

/-- A stored order whose reference fields the enrichment loop can decode:
each of `customer_id` and `installer_id` is falsy or a well-formed
identifier. -/
def idsDecodable (so : StoredOrder) : Bool :=
  (!truthyStr so.order.customer_id || validOid so.order.customer_id) &&
  (match so.order.installer_id with
   | some s => !truthyStr s || validOid s
   | none => true)

/-- The installer reference of a stored order resolves to no installer:
it is absent, falsy, or well-formed but matching no installer document. -/
def instUnresolved (st : DBState) (so : StoredOrder) : Bool :=
  match so.order.installer_id with
  | none => true
  | some s => !truthyStr s || (validOid s && (findInstaller st ⟨canonHex s⟩).isNone)

/-- The customer reference of a stored order resolves to no customer:
it is falsy, or well-formed but matching no customer document. -/
def custUnresolved (st : DBState) (so : StoredOrder) : Bool :=
  !truthyStr so.order.customer_id ||
    (validOid so.order.customer_id &&
      (findCustomer st ⟨canonHex so.order.customer_id⟩).isNone)

/-! ### Helper lemmas -/

theorem sumItems_nil : sumItems [] = 0 := rfl

theorem sumItems_cons (x : OrderItem) (xs : List OrderItem) :
    sumItems (x :: xs) = itemAmount x + sumItems xs := by
  simp [sumItems]

theorem foldl_itemAmount (l : List OrderItem) :
    ∀ a : ℚ, l.foldl (fun acc it => acc + itemAmount it) a = a + sumItems l := by
  induction l with
  | nil => intro a; simp [sumItems]
  | cons x xs ih => intro a; simp [sumItems_cons, ih, add_assoc]

theorem round2_zero : round2 0 = 0 := by
  have h : roundHalfEven 0 = 0 := by
    rw [roundHalfEven]
    norm_num
  rw [round2, show (0 : ℚ) * 100 = 0 from zero_mul 100, h]
  norm_num

theorem resolveItem_priced (st : DBState) (it : OrderItem)
    (h : it.unit_price.isSome = true) : resolveItem st it = .ok it := by
  cases hup : it.unit_price with
  | some v => simp [resolveItem, hup]
  | none => rw [hup] at h; simp at h

theorem resolveItems_all_priced (st : DBState) :
    ∀ l : List OrderItem, (∀ it ∈ l, it.unit_price.isSome = true) →
      resolveItems st l = .ok l := by
  intro l
  induction l with
  | nil => intro _; rfl
  | cons x xs ih =>
    intro h
    have hx := resolveItem_priced st x (h x (by simp))
    have hxs := ih (fun it hm => h it (List.mem_cons_of_mem _ hm))
    simp [resolveItems, hx, hxs]

theorem resolveItem_error_unpriced (st : DBState) (it : OrderItem) (e : ApiError)
    (h : resolveItem st it = .error e) : it.unit_price = none := by
  cases hup : it.unit_price with
  | some v => simp [resolveItem, hup] at h
  | none => rfl

theorem resolveItem_error_shape (st : DBState) (it : OrderItem) (e : ApiError)
    (hv : validOid it.material_id = true)
    (h : resolveItem st it = .error e) : ∃ m, e = .materialNotFound m := by
  cases hup : it.unit_price with
  | some v => simp [resolveItem, hup] at h
  | none =>
    rw [resolveItem, hup] at h
    rw [oid, hv] at h
    simp only [if_true] at h
    cases hm : findMaterial st ⟨canonHex it.material_id⟩ with
    | none => rw [hm] at h; exact ⟨it.material_id, by injection h with h2; exact h2.symm⟩
    | some mat => rw [hm] at h; simp at h

theorem resolveItems_error_mem (st : DBState) :
    ∀ (l : List OrderItem) (e : ApiError), resolveItems st l = .error e →
      ∃ it ∈ l, it.unit_price = none := by
  intro l
  induction l with
  | nil => intro e h; simp [resolveItems] at h
  | cons x xs ih =>
    intro e h
    rw [resolveItems] at h
    cases hx : resolveItem st x with
    | error e2 => exact ⟨x, by simp, resolveItem_error_unpriced st x e2 hx⟩
    | ok x2 =>
      rw [hx] at h
      cases hs : resolveItems st xs with
      | error e3 =>
        obtain ⟨it, hm, hu⟩ := ih e3 hs
        exact ⟨it, by simp [hm], hu⟩
      | ok l2 => rw [hs] at h; simp at h

theorem resolveItems_error_shape (st : DBState) :
    ∀ (l : List OrderItem) (e : ApiError),
      (∀ j ∈ l, j.unit_price = none → validOid j.material_id = true) →
      resolveItems st l = .error e → ∃ m, e = .materialNotFound m := by
  intro l
  induction l with
  | nil => intro e _ h; simp [resolveItems] at h
  | cons x xs ih =>
    intro e hall h
    rw [resolveItems] at h
    cases hx : resolveItem st x with
    | error e2 =>
      rw [hx] at h
      have hx0 : x.unit_price = none := resolveItem_error_unpriced st x e2 hx
      have hv : validOid x.material_id = true := hall x (by simp) hx0
      obtain ⟨m, hm⟩ := resolveItem_error_shape st x e2 hv hx
      exact ⟨m, by injection h with h2; rw [← h2, hm]⟩
    | ok x2 =>
      rw [hx] at h
      cases hs : resolveItems st xs with
      | error e3 =>
        rw [hs] at h
        obtain ⟨m, hm⟩ := ih e3 (fun j hj => hall j (List.mem_cons_of_mem _ hj)) hs
        exact ⟨m, by injection h with h2; rw [← h2, hm]⟩
      | ok l2 => rw [hs] at h; simp at h

theorem resolveItems_ok_mem (st : DBState) :
    ∀ (l l' : List OrderItem) (it : OrderItem), resolveItems st l = .ok l' →
      it ∈ l → ∃ it2, resolveItem st it = .ok it2 := by
  intro l
  induction l with
  | nil => intro l' it _ hm; simp at hm
  | cons x xs ih =>
    intro l' it h hm
    rw [resolveItems] at h
    cases hx : resolveItem st x with
    | error e2 => rw [hx] at h; simp at h
    | ok x2 =>
      rw [hx] at h
      cases hs : resolveItems st xs with
      | error e3 => rw [hs] at h; simp at h
      | ok l2 =>
        cases List.mem_cons.mp hm with
        | inl hx2 => exact ⟨x2, hx2 ▸ hx⟩
        | inr hxs => exact ih l2 it hs hxs

theorem resolveItems_ok_get (st : DBState) :
    ∀ (l l' : List OrderItem) (n : ℕ) (it : OrderItem),
      resolveItems st l = .ok l' → l[n]? = some it →
      ∃ it2, l'[n]? = some it2 ∧ resolveItem st it = .ok it2 := by
  intro l
  induction l with
  | nil => intro l' n it _ hg; simp at hg
  | cons x xs ih =>
    intro l' n it h hg
    rw [resolveItems] at h
    cases hx : resolveItem st x with
    | error e2 => rw [hx] at h; simp at h
    | ok x2 =>
      rw [hx] at h
      cases hs : resolveItems st xs with
      | error e3 => rw [hs] at h; simp at h
      | ok l2 =>
        rw [hs] at h
        simp only [Except.ok.injEq] at h
        subst h
        cases n with
        | zero =>
          simp at hg
          exact ⟨x2, by simp, hg ▸ hx⟩
        | succ m =>
          simp at hg
          obtain ⟨it2, hget, hri⟩ := ih l2 m it hs hg
          exact ⟨it2, by simpa using hget, hri⟩

theorem serializeItem_idem (it : ItemDoc) :
    serializeItem (serializeItem it) = serializeItem it := by
  cases it with
  | mk mid q up => cases mid <;> simp [serializeItem]

theorem stripId_of_idNone (d : StoreDoc) (h : d._id = none) : stripId d = d := by
  rw [stripId, h]

theorem stripId_idNone (d : StoreDoc) : (stripId d)._id = none := by
  rw [stripId]
  cases h : d._id with
  | some v => rfl
  | none => rw [h]

theorem fixItems_id (d : StoreDoc) : (fixItems d)._id = d._id := by
  rw [fixItems]
  cases h : d.items with
  | some its =>
    cases its with
    | nil => rfl
    | cons x xs => rfl
  | none => rfl

theorem fixItems_idem (d : StoreDoc) : fixItems (fixItems d) = fixItems d := by
  cases d with
  | mk di de dits dr =>
    cases dits with
    | none => simp [fixItems]
    | some its =>
      cases its with
      | nil => simp [fixItems]
      | cons x xs =>
        simp [fixItems, List.map_map, Function.comp_def, serializeItem_idem]

theorem occursIn_nil (l : List Char) : occursIn [] l = true := by
  cases l with
  | nil => rfl
  | cons b bs => simp [occursIn, leadMatch]

theorem ciContains_empty (s : String) : ciContains "" s = true := by
  rw [ciContains]
  exact occursIn_nil _

theorem customerMatches_empty (c : CustomerDoc) : customerMatches "" c = true := by
  rw [customerMatches, ciContains_empty]
  rfl

/-- The customer document the enrichment loop ends up with for a
decodable reference: none when the reference is falsy, otherwise the
`find_one` result on the decoded identifier. -/
def custResolved (st : DBState) (cid : String) : Option CustomerDoc :=
  if truthyStr cid then findCustomer st ⟨canonHex cid⟩ else none

/-- The installer document the enrichment loop ends up with for a
decodable reference, analogous to `custResolved`. -/
def instResolved (st : DBState) (iid : Option String) : Option InstallerDoc :=
  match iid with
  | some s => if truthyStr s then findInstaller st ⟨canonHex s⟩ else none
  | none => none

theorem custLookup_decodable (st : DBState) (cid : String)
    (h : (!truthyStr cid || validOid cid) = true) :
    custLookup st cid = .ok (custResolved st cid) := by
  cases ht : truthyStr cid with
  | false => simp [custLookup, custResolved, ht]
  | true =>
    rw [ht] at h
    simp only [Bool.not_true, Bool.false_or] at h
    simp [custLookup, custResolved, ht, oid, h]

theorem instLookup_decodable (st : DBState) (iid : Option String)
    (h : (match iid with
          | some s => !truthyStr s || validOid s
          | none => true) = true) :
    instLookup st iid = .ok (instResolved st iid) := by
  cases iid with
  | none => rfl
  | some s =>
    have h2 : (!truthyStr s || validOid s) = true := h
    cases ht : truthyStr s with
    | false => simp [instLookup, instResolved, ht]
    | true =>
      rw [ht] at h2
      simp only [Bool.not_true, Bool.false_or] at h2
      simp [instLookup, instResolved, ht, oid, h2]

theorem enrichOrder_decodable (st : DBState) (so : StoredOrder)
    (h : idsDecodable so = true) :
    enrichOrder st so =
      .ok ⟨so,
        (custResolved st so.order.customer_id).map (fun c => c.name),
        (instResolved st so.order.installer_id).map (fun j => j.name)⟩ := by
  rw [idsDecodable, Bool.and_eq_true] at h
  obtain ⟨hc, hi⟩ := h
  rw [enrichOrder, custLookup_decodable st _ hc, instLookup_decodable st _ hi]

theorem enrichAll_ok (st : DBState) :
    ∀ l : List StoredOrder, (∀ x ∈ l, ∃ e, enrichOrder st x = .ok e) →
      ∃ l', enrichAll st l = .ok l' := by
  intro l
  induction l with
  | nil => intro _; exact ⟨[], rfl⟩
  | cons x xs ih =>
    intro h
    obtain ⟨e, he⟩ := h x (by simp)
    obtain ⟨l2, hl2⟩ := ih (fun y hy => h y (List.mem_cons_of_mem _ hy))
    exact ⟨e :: l2, by rw [enrichAll, he, hl2]⟩

theorem enrichAll_mem (st : DBState) :
    ∀ (l : List StoredOrder) (l' : List EnrichedOrder) (x : StoredOrder)
      (e : EnrichedOrder), enrichAll st l = .ok l' → x ∈ l →
      enrichOrder st x = .ok e → e ∈ l' := by
  intro l
  induction l with
  | nil => intro l' x e _ hm; simp at hm
  | cons y ys ih =>
    intro l' x e h hm he
    rw [enrichAll] at h
    cases hy : enrichOrder st y with
    | error e2 => rw [hy] at h; simp at h
    | ok ey =>
      rw [hy] at h
      cases hs : enrichAll st ys with
      | error e3 => rw [hs] at h; simp at h
      | ok l2 =>
        rw [hs] at h
        simp only [Except.ok.injEq] at h
        subst h
        cases List.mem_cons.mp hm with
        | inl hx =>
          subst hx
          rw [hy] at he
          simp only [Except.ok.injEq] at he
          subst he
          simp
        | inr hxs => exact List.mem_cons_of_mem _ (ih l2 x e hs hxs he)

instance exceptApiDecEq {α : Type} [DecidableEq α] : DecidableEq (Except ApiError α) := fun a b =>
  match a, b with
  | .error e1, .error e2 =>
    if h : e1 = e2 then .isTrue (h ▸ rfl) else .isFalse (fun hc => h (Except.error.inj hc))
  | .error _, .ok _ => .isFalse (fun hc => Except.noConfusion hc)
  | .ok _, .error _ => .isFalse (fun hc => Except.noConfusion hc)
  | .ok x, .ok y =>
    if h : x = y then .isTrue (h ▸ rfl) else .isFalse (fun hc => h (Except.ok.inj hc))

/-! ### The claims -/

/-- C1: when every item of the payload carries an explicit `unit_price`,
CreateOrder succeeds and returns total = `round2` of the sum over the
items of `unit_price` times `quantity`, whatever the material collection
holds (the state is universally quantified and never consulted); in
particular an empty item list yields total 0 and succeeds. -/
theorem create_order_explicit_prices (st : DBState) (p : Order)
    (h : ∀ it ∈ p.items, it.unit_price.isSome = true) :
    (create_order st p).2 = Except.ok (st.nextId, round2 (sumItems p.items)) ∧
    (p.items = [] → (create_order st p).2 = Except.ok (st.nextId, 0)) := by
  have hres := resolveItems_all_priced st p.items h
  have hmain : (create_order st p).2 = Except.ok (st.nextId, round2 (sumItems p.items)) := by
    rw [create_order, hres]
    simp only [foldl_itemAmount, zero_add]
  refine ⟨hmain, ?_⟩
  intro hnil
  rw [hmain, hnil, sumItems_nil, round2_zero]

def stC1 : DBState :=
  { customers := [], installers := [],
    materials := [⟨⟨"0123456789abcdef01234567"⟩, "M9", "Regel", "st", some 99, 7, none⟩],
    orders := [], nextId := ⟨"aaaaaaaaaaaaaaaaaaaaaaaa"⟩ }

def ordC1 : Order :=
  { customer_id := "kund", installer_id := none,
    items := [⟨"inte-ett-id", 2, some 3⟩, ⟨"", 4, some 1⟩],
    status := "ny", scheduled_date := none, total := none, notes := none }

theorem create_order_explicit_prices_witness :
    (∀ it ∈ ordC1.items, it.unit_price.isSome = true) ∧
    ((create_order stC1 ordC1).2 = Except.ok (stC1.nextId, round2 (sumItems ordC1.items)) ∧
      (ordC1.items = [] → (create_order stC1 ordC1).2 = Except.ok (stC1.nextId, 0))) :=
  ⟨by decide, create_order_explicit_prices stC1 ordC1 (by decide)⟩

/-- C2: when the pricing loop succeeds, an item that arrived without a
`unit_price` and whose well-formed `material_id` — in any hex-case
spelling — matches a stored material is persisted with `unit_price`
equal to that material's `price` field, a missing `price` field
counting as 0. -/
theorem create_order_fetches_material_price (st : DBState) (p : Order)
    (ris : List OrderItem) (n : ℕ) (it : OrderItem) (mat : MaterialDoc)
    (hres : resolveItems st p.items = Except.ok ris)
    (hget : p.items[n]? = some it)
    (hup : it.unit_price = none)
    (hv : validOid it.material_id = true)
    (hmat : findMaterial st ⟨canonHex it.material_id⟩ = some mat) :
    (create_order st p).1.orders =
      st.orders ++
        [⟨st.nextId, { p with items := ris, total := some (round2 (sumItems ris)) }⟩] ∧
    ris[n]? = some { it with unit_price := some (mat.price.getD 0) } := by
  constructor
  · rw [create_order, hres]
    simp only [foldl_itemAmount, zero_add]
  · obtain ⟨it2, hg2, hri⟩ := resolveItems_ok_get st p.items ris n it hres hget
    rw [resolveItem, hup] at hri
    simp only [oid, hv, if_true] at hri
    rw [hmat] at hri
    simp only [Except.ok.injEq] at hri
    rw [hg2, ← hri]

def matC2 : MaterialDoc := ⟨⟨"0123456789abcdef01234567"⟩, "M1", "Skruv", "st", some 3, 10, none⟩

def itC2 : OrderItem := ⟨"0123456789ABCDEF01234567", 2, none⟩

def stC2 : DBState :=
  { customers := [], installers := [], materials := [matC2],
    orders := [], nextId := ⟨"aaaaaaaaaaaaaaaaaaaaaaaa"⟩ }

def ordC2 : Order :=
  { customer_id := "kund", installer_id := none, items := [itC2],
    status := "ny", scheduled_date := none, total := none, notes := none }

def risC2 : List OrderItem := [⟨"0123456789ABCDEF01234567", 2, some 3⟩]

theorem create_order_fetches_material_price_witness :
    (resolveItems stC2 ordC2.items = Except.ok risC2 ∧
     ordC2.items[0]? = some itC2 ∧
     itC2.unit_price = none ∧
     validOid itC2.material_id = true ∧
     findMaterial stC2 ⟨canonHex itC2.material_id⟩ = some matC2) ∧
    ((create_order stC2 ordC2).1.orders =
       stC2.orders ++
         [⟨stC2.nextId, { ordC2 with items := risC2, total := some (round2 (sumItems risC2)) }⟩] ∧
     risC2[0]? = some { itC2 with unit_price := some (matC2.price.getD 0) }) :=
  ⟨⟨by decide, by decide, by decide, by decide, by decide⟩,
    create_order_fetches_material_price stC2 ordC2 risC2 0 itC2 matC2
      (by decide) (by decide) (by decide) (by decide) (by decide)⟩

/-- C3 counterexample: a payload whose only item has no `unit_price` and
a malformed `material_id` — which therefore matches no material in the
(empty) store — fails with the invalid-identifier client error, not with
the material-not-found error the claim demands. -/
def stC3 : DBState :=
  { customers := [], installers := [], materials := [], orders := [],
    nextId := ⟨"bbbbbbbbbbbbbbbbbbbbbbbb"⟩ }

def ordC3bad : Order :=
  { customer_id := "kund", installer_id := none,
    items := [⟨"inte-ett-id", 1, none⟩],
    status := "ny", scheduled_date := none, total := none, notes := none }

theorem create_order_missing_material_counterexample :
    (create_order stC3 ordC3bad).2 = Except.error ApiError.invalidIdentifier ∧
    ApiError.invalidIdentifier ≠ ApiError.materialNotFound "inte-ett-id" :=
  ⟨rfl, by decide⟩

/-- C3 amended: when some item has no `unit_price` and a well-formed
`material_id` whose decoded identifier matches no stored material, and
every item lacking a `unit_price` carries a well-formed `material_id`,
CreateOrder fails with a material-not-found client error and persists
nothing: the returned state is exactly the initial one. -/
theorem create_order_missing_material (st : DBState) (p : Order)
    (n : ℕ) (it : OrderItem)
    (hget : p.items[n]? = some it)
    (hup : it.unit_price = none)
    (hall : ∀ j ∈ p.items, j.unit_price = none → validOid j.material_id = true)
    (hmiss : findMaterial st ⟨canonHex it.material_id⟩ = none) :
    ∃ m, create_order st p = (st, Except.error (ApiError.materialNotFound m)) := by
  have hmem : it ∈ p.items := List.getElem?_mem hget
  have hit : resolveItem st it = Except.error (ApiError.materialNotFound it.material_id) := by
    rw [resolveItem, hup]
    simp only [oid, hall it hmem hup, if_true, hmiss]
  cases hres : resolveItems st p.items with
  | ok ris =>
    obtain ⟨it2, hok⟩ := resolveItems_ok_mem st p.items ris it hres hmem
    rw [hit] at hok
    simp at hok
  | error e =>
    obtain ⟨m, hm⟩ := resolveItems_error_shape st p.items e hall hres
    exact ⟨m, by rw [create_order, hres, hm]⟩

def stC3b : DBState :=
  { customers := [], installers := [],
    materials := [⟨⟨"0123456789abcdef01234567"⟩, "M1", "Skruv", "st", some 3, 10, none⟩],
    orders := [], nextId := ⟨"bbbbbbbbbbbbbbbbbbbbbbbb"⟩ }

def itC3 : OrderItem := ⟨"ffffffffffffffffffffffff", 1, none⟩

def ordC3 : Order :=
  { customer_id := "kund", installer_id := none, items := [itC3],
    status := "ny", scheduled_date := none, total := none, notes := none }

theorem create_order_missing_material_witness :
    (ordC3.items[0]? = some itC3 ∧
     itC3.unit_price = none ∧
     (∀ j ∈ ordC3.items, j.unit_price = none → validOid j.material_id = true) ∧
     findMaterial stC3b ⟨canonHex itC3.material_id⟩ = none) ∧
    (∃ m, create_order stC3b ordC3 = (stC3b, Except.error (ApiError.materialNotFound m))) :=
  ⟨⟨by decide, by decide, by decide, by decide⟩,
    create_order_missing_material stC3b ordC3 0 itC3
      (by decide) (by decide) (by decide) (by decide)⟩

theorem sumItems_set (v : OrderItem) :
    ∀ (l : List OrderItem) (n : ℕ) (w : OrderItem), l[n]? = some w →
      itemAmount v = itemAmount w → sumItems (l.set n v) = sumItems l := by
  intro l
  induction l with
  | nil => intro n w hget _; simp at hget
  | cons x xs ih =>
    intro n w hget ha
    cases n with
    | zero =>
      simp at hget
      subst hget
      simp [List.set, sumItems_cons, ha]
    | succ m =>
      simp at hget
      simp [List.set, sumItems_cons, ih m w hget ha]

theorem resolveItems_set_priced (st : DBState) (s : String) :
    ∀ (l : List OrderItem) (n : ℕ) (it : OrderItem), l[n]? = some it →
      it.unit_price.isSome = true →
      resolveItems st (l.set n { it with material_id := s }) =
        Except.map (fun r => r.set n { it with material_id := s }) (resolveItems st l) := by
  intro l
  induction l with
  | nil => intro n it hget _; simp at hget
  | cons x xs ih =>
    intro n it hget hp
    cases n with
    | zero =>
      simp at hget
      subst hget
      show resolveItems st ({ x with material_id := s } :: xs) = _
      rw [resolveItems, resolveItems]
      rw [resolveItem_priced st { x with material_id := s } hp, resolveItem_priced st x hp]
      cases hs : resolveItems st xs with
      | error e => rfl
      | ok rest => rfl
    | succ m =>
      simp at hget
      show resolveItems st (x :: xs.set m { it with material_id := s }) = _
      rw [resolveItems, resolveItems]
      cases hx : resolveItem st x with
      | error e => rfl
      | ok x2 =>
        rw [ih m it hget hp]
        cases hs : resolveItems st xs with
        | error e => rfl
        | ok rest => rfl

/-- C5: an item that carries an explicit `unit_price` contributes only
its price and quantity: replacing that item's `material_id` by an
arbitrary — dangling or malformed — string leaves CreateOrder's outcome
(success or error, returned id and total) unchanged for every store
state, so the reference is never decoded or looked up; and a hard error
can arise only from an item whose `unit_price` is unset. -/
theorem create_order_priced_item_ref_ignored (st : DBState) (p : Order)
    (n : ℕ) (it : OrderItem) (s : String)
    (hget : p.items[n]? = some it)
    (hp : it.unit_price.isSome = true) :
    (create_order st { p with items := p.items.set n { it with material_id := s } }).2 =
      (create_order st p).2 ∧
    (isOkE (create_order st p).2 = false → ∃ j ∈ p.items, j.unit_price = none) := by
  constructor
  · have hset := resolveItems_set_priced st s p.items n it hget hp
    have hitems :
        ({ p with items := p.items.set n { it with material_id := s } } : Order).items =
          p.items.set n { it with material_id := s } := rfl
    rw [create_order, create_order, hitems, hset]
    cases hres : resolveItems st p.items with
    | error e => rfl
    | ok r =>
      obtain ⟨it2, hg2, hri⟩ := resolveItems_ok_get st p.items r n it hres hget
      rw [resolveItem_priced st it hp] at hri
      have hit2 : it2 = it := by
        injection hri with h2
        exact h2.symm
      rw [hit2] at hg2
      have hsum : sumItems (r.set n { it with material_id := s }) = sumItems r :=
        sumItems_set { it with material_id := s } r n it hg2 rfl
      simp only [Except.map, foldl_itemAmount, zero_add, hsum]
  · intro h
    cases hres : resolveItems st p.items with
    | ok ris =>
      rw [create_order, hres] at h
      simp [isOkE] at h
    | error e => exact resolveItems_error_mem st p.items e hres

def stC5 : DBState :=
  { customers := [], installers := [], materials := [], orders := [],
    nextId := ⟨"cccccccccccccccccccccccc"⟩ }

def itC5 : OrderItem := ⟨"inte-ett-id", 2, some 3⟩

def ordC5 : Order :=
  { customer_id := "kund", installer_id := none, items := [itC5],
    status := "ny", scheduled_date := none, total := none, notes := none }

theorem create_order_priced_item_ref_ignored_witness :
    (ordC5.items[0]? = some itC5 ∧ itC5.unit_price.isSome = true) ∧
    ((create_order stC5
        { ordC5 with
          items := ordC5.items.set 0 { itC5 with material_id := "0123456789abcdef01234567" } }).2 =
      (create_order stC5 ordC5).2 ∧
     (isOkE (create_order stC5 ordC5).2 = false → ∃ j ∈ ordC5.items, j.unit_price = none)) :=
  ⟨⟨by decide, by decide⟩,
    create_order_priced_item_ref_ignored stC5 ordC5 0 itC5 "0123456789abcdef01234567"
      (by decide) (by decide)⟩

/-- C9: a client-supplied `total` is ignored entirely: CreateOrder on a
payload whose `total` field has been replaced by an arbitrary value
returns the same result — same outcome, same returned total, same
persisted state — as on the original payload, because the computed
rounded sum overwrites the field before the insert. -/
theorem create_order_ignores_client_total (st : DBState) (p : Order) (t : Option ℚ) :
    create_order st { p with total := t } = create_order st p := by
  have hitems : ({ p with total := t } : Order).items = p.items := rfl
  rw [create_order, create_order, hitems]

/-- C4: `serialize` is idempotent: the first pass pops the internal
identifier into the external string `id` field and stringifies exactly
the nested `material_id` values still of the native identifier type, so
a second pass finds no internal identifier and no native-typed
`material_id` and changes nothing. -/
theorem serialize_idempotent (d : StoreDoc) : serialize (serialize d) = serialize d := by
  rw [serialize, serialize]
  rw [stripId_of_idNone (fixItems (stripId d)) (by rw [fixItems_id]; exact stripId_idNone d)]
  exact fixItems_idem (stripId d)

/-- C6: `GET /customers` without a filter returns every customer record,
and with a filter string returns exactly the records whose `name` or
`company` contains it as a case-insensitive literal substring (a record
without a `company` can match only on `name`). -/
theorem list_customers_search (st : DBState) (q : String) :
    list_customers none st = st.customers ∧
    list_customers (some q) st = st.customers.filter (customerMatches q) := by
  refine ⟨rfl, ?_⟩
  rw [list_customers]
  cases ht : truthyStr q with
  | true => simp
  | false =>
    have hq : q = "" := by
      rw [truthyStr] at ht
      simpa using ht
    subst hq
    simp only [Bool.false_eq_true, if_false]
    exact (List.filter_eq_self.mpr fun c _ => customerMatches_empty c).symm

/-- C7 counterexample: a stored order whose `customer_id` is the
malformed string "bad" — matching no customer document, the customer
collection being empty — makes ListOrders fail with the
invalid-identifier client error instead of returning the order with a
null `customer_name`. -/
def stC7bad : DBState :=
  { customers := [], installers := [], materials := [],
    orders :=
      [⟨⟨"dddddddddddddddddddddddd"⟩,
        { customer_id := "bad", installer_id := none, items := [],
          status := "ny", scheduled_date := none, total := none, notes := none }⟩],
    nextId := ⟨"abcdefabcdefabcdefabcdef"⟩ }

theorem list_orders_dangling_counterexample :
    list_orders none none stC7bad = Except.error ApiError.invalidIdentifier := rfl

/-- C7 amended: when every stored order's reference fields are falsy or
well-formed identifiers, ListOrders succeeds, and the row it returns for
a stored order carries `customer_name` null whenever the order's
customer reference is falsy or dangling — independently of whether its
installer reference resolves — and `installer_name` null whenever its
installer reference is absent, falsy or dangling, independently of the
customer side. -/
theorem list_orders_dangling_names (st : DBState) (so : StoredOrder)
    (hall : ∀ x ∈ st.orders, idsDecodable x = true)
    (hmem : so ∈ st.orders) :
    ∃ l e, list_orders none none st = Except.ok l ∧ e ∈ l ∧ e.doc = so ∧
      (custUnresolved st so = true → e.customer_name = none) ∧
      (instUnresolved st so = true → e.installer_name = none) := by
  have hfil : st.orders.filter (orderFilter none none) = st.orders :=
    List.filter_eq_self.mpr (fun x _ => rfl)
  have hso := enrichOrder_decodable st so (hall so hmem)
  obtain ⟨l, hl⟩ :=
    enrichAll_ok st st.orders (fun x hx => ⟨_, enrichOrder_decodable st x (hall x hx)⟩)
  have hmeml := enrichAll_mem st st.orders l so _ hl hmem hso
  refine ⟨l, _, ?_, hmeml, rfl, ?_, ?_⟩
  · rw [list_orders, hfil, hl]
  · intro hcu
    rw [custUnresolved] at hcu
    show (custResolved st so.order.customer_id).map (fun c => c.name) = none
    cases ht : truthyStr so.order.customer_id with
    | false => simp [custResolved, ht]
    | true =>
      rw [ht] at hcu
      simp only [Bool.not_true, Bool.false_or, Bool.and_eq_true] at hcu
      obtain ⟨hvv, hn⟩ := hcu
      simp [custResolved, ht, Option.isNone_iff_eq_none.mp hn]
  · intro hiu
    rw [instUnresolved] at hiu
    show (instResolved st so.order.installer_id).map (fun j => j.name) = none
    cases hii : so.order.installer_id with
    | none => simp [instResolved]
    | some s =>
      rw [hii] at hiu
      have hiu2 : (!truthyStr s || (validOid s && (findInstaller st ⟨canonHex s⟩).isNone)) = true :=
        hiu
      cases ht : truthyStr s with
      | false => simp [instResolved, ht]
      | true =>
        rw [ht] at hiu2
        simp only [Bool.not_true, Bool.false_or, Bool.and_eq_true] at hiu2
        obtain ⟨hvs, hn⟩ := hiu2
        simp [instResolved, ht, Option.isNone_iff_eq_none.mp hn]

def soC7 : StoredOrder :=
  ⟨⟨"dddddddddddddddddddddddd"⟩,
   { customer_id := "eeeeeeeeeeeeeeeeeeeeeeee",
     installer_id := some "ffffffffffffffffffffffff",
     items := [], status := "ny", scheduled_date := none, total := none,
     notes := none }⟩

def stC7 : DBState :=
  { customers := [],
    installers := [⟨⟨"ffffffffffffffffffffffff"⟩, "Montor", none, none, [], true⟩],
    materials := [], orders := [soC7],
    nextId := ⟨"abcdefabcdefabcdefabcdef"⟩ }

theorem list_orders_dangling_names_witness :
    ((∀ x ∈ stC7.orders, idsDecodable x = true) ∧ soC7 ∈ stC7.orders) ∧
    (∃ l e, list_orders none none stC7 = Except.ok l ∧ e ∈ l ∧ e.doc = soC7 ∧
      (custUnresolved stC7 soC7 = true → e.customer_name = none) ∧
      (instUnresolved stC7 soC7 = true → e.installer_name = none)) :=
  ⟨⟨by decide, by decide⟩,
    list_orders_dangling_names stC7 soC7 (by decide) (by decide)⟩

/-- C8 counterexample: the order schema's declared default for `status`
is the Swedish "ny", not "new": a payload omitting the field validates
to an order whose status is "ny". -/
theorem order_default_status_counterexample :
    (parseOrder ⟨"kund", none, none, none, none, none, none⟩).status = "ny" ∧
    (parseOrder ⟨"kund", none, none, none, none, none, none⟩).status ≠ "new" := by
  constructor
  · rfl
  · decide

/-- C8 amended: a payload that omits `status` is validated to an order
whose status is the schema default "ny". -/
theorem order_default_status (p : OrderPayload) (h : p.status = none) :
    (parseOrder p).status = "ny" := by
  rw [parseOrder, h]
  rfl

theorem order_default_status_witness :
    (OrderPayload.mk "kund" none none none none none none).status = none ∧
    (parseOrder (OrderPayload.mk "kund" none none none none none none)).status = "ny" :=
  ⟨rfl, order_default_status (OrderPayload.mk "kund" none none none none none none) rfl⟩

/-- C10: an empty-string query filter is treated exactly as an absent
one: `GET /orders` with status "" or customer_id "" computes the same
response as with no filter (hence returns every order, enriched), and
`GET /customers` with q "" returns the same records as with no query. -/
theorem empty_string_filters_ignored (st : DBState) :
    list_orders (some "") none st = list_orders none none st ∧
    list_orders none (some "") st = list_orders none none st ∧
    list_customers (some "") st = list_customers none st :=
  ⟨rfl, rfl, rfl⟩

end Hantverkar
